import Mathlib

/-!
Verification development for the scoreboard statistics pipeline
(`api/process_scoreboard.py`, `api/rankings.py`, `main.py`).

The embedding models Python values flowing through the pipeline as the
inductive type `PyValue`: plain JSON-serializable values (`pyDict`,
`pyList`, `pyInt`, `pyFloat`, `pyStr`) together with the nbtlib tag
objects (`nbtCompound`, `nbtList`, the integer arrays, the integer,
float and string scalars, and a catch-all `nbtOther` carrying its
string rendering).  Python floats are modelled as rationals.
-/

namespace LPStats

/-- A Python runtime value as seen by this pipeline: either a plain
JSON-shaped value or an nbtlib tag object. -/
inductive PyValue where
  | pyDict : List (String × PyValue) → PyValue
  | pyList : List PyValue → PyValue
  | pyInt : Int → PyValue
  | pyFloat : ℚ → PyValue
  | pyStr : String → PyValue
  | nbtCompound : List (String × PyValue) → PyValue
  | nbtList : List PyValue → PyValue
  | nbtByteArray : List Int → PyValue
  | nbtIntArray : List Int → PyValue
  | nbtLongArray : List Int → PyValue
  | nbtByte : Int → PyValue
  | nbtShort : Int → PyValue
  | nbtInt : Int → PyValue
  | nbtLong : Int → PyValue
  | nbtFloat : ℚ → PyValue
  | nbtDouble : ℚ → PyValue
  | nbtString : String → PyValue
  | nbtOther : String → PyValue

open PyValue

mutual

/-- Boolean structural equality on `PyValue` (Python `==` on these values). -/
def beqV : PyValue → PyValue → Bool
  | pyDict xs, pyDict ys => beqE xs ys
  | pyList xs, pyList ys => beqL xs ys
  | pyInt m, pyInt n => m == n
  | pyFloat p, pyFloat q => p == q
  | pyStr s, pyStr t => s == t
  | nbtCompound xs, nbtCompound ys => beqE xs ys
  | nbtList xs, nbtList ys => beqL xs ys
  | nbtByteArray xs, nbtByteArray ys => xs == ys
  | nbtIntArray xs, nbtIntArray ys => xs == ys
  | nbtLongArray xs, nbtLongArray ys => xs == ys
  | nbtByte m, nbtByte n => m == n
  | nbtShort m, nbtShort n => m == n
  | nbtInt m, nbtInt n => m == n
  | nbtLong m, nbtLong n => m == n
  | nbtFloat p, nbtFloat q => p == q
  | nbtDouble p, nbtDouble q => p == q
  | nbtString s, nbtString t => s == t
  | nbtOther s, nbtOther t => s == t
  | _, _ => false

/-- Boolean equality on lists of `PyValue`. -/
def beqL : List PyValue → List PyValue → Bool
  | [], [] => true
  | x :: xs, y :: ys => beqV x y && beqL xs ys
  | _, _ => false

/-- Boolean equality on string-keyed entry lists. -/
def beqE : List (String × PyValue) → List (String × PyValue) → Bool
  | [], [] => true
  | (k, v) :: xs, (l, w) :: ys => k == l && beqV v w && beqE xs ys
  | _, _ => false

end

set_option maxHeartbeats 2000000

mutual

theorem beqV_iff : ∀ a b, beqV a b = true ↔ a = b := by
  intro a b
  cases a <;> cases b <;>
    simp only [beqV, beq_iff_eq, Bool.false_eq_true, Bool.and_eq_true,
      pyDict.injEq, pyList.injEq, pyInt.injEq, pyFloat.injEq, pyStr.injEq,
      nbtCompound.injEq, nbtList.injEq, nbtByteArray.injEq, nbtIntArray.injEq,
      nbtLongArray.injEq, nbtByte.injEq, nbtShort.injEq, nbtInt.injEq,
      nbtLong.injEq, nbtFloat.injEq, nbtDouble.injEq, nbtString.injEq,
      nbtOther.injEq, reduceCtorEq, iff_self, false_iff] <;>
    first
      | rfl
      | exact fun h => PyValue.noConfusion h
      | exact beqE_iff _ _
      | exact beqL_iff _ _
termination_by a _ => sizeOf a

theorem beqL_iff : ∀ xs ys, beqL xs ys = true ↔ xs = ys := by
  intro xs ys
  cases xs <;> cases ys <;>
    simp only [beqL, Bool.false_eq_true, Bool.and_eq_true, List.cons.injEq,
      reduceCtorEq, iff_self, false_iff]
  rw [beqV_iff, beqL_iff]
termination_by xs _ => sizeOf xs

theorem beqE_iff : ∀ xs ys, beqE xs ys = true ↔ xs = ys := by
  intro xs ys
  match xs, ys with
  | [], [] => simp [beqE]
  | [], (l, w) :: ys => simp [beqE]
  | (k, v) :: xs, [] => simp [beqE]
  | (k, v) :: xs, (l, w) :: ys =>
    simp only [beqE, Bool.and_eq_true, beq_iff_eq, List.cons.injEq, Prod.mk.injEq]
    rw [beqV_iff, beqE_iff, and_assoc]
termination_by xs _ => sizeOf xs

end

instance : DecidableEq PyValue := fun a b => decidable_of_iff _ (beqV_iff a b)

/-- Single-quote character, used by Python `repr` of strings. -/
def squote : String := (Char.ofNat 39).toString

mutual

/-- Python `repr` of a value.  Renderings of floats are abstracted as the
rational rendering, string escaping is not modelled, and the reprs of
nbtlib container/array tags are plausible placeholders: none of these
renderings is ever inspected by the pipeline, which only calls `str` on
values and compares the results for equality with themselves. -/
def pyReprV : PyValue → String
  | pyDict xs => "\x7b" ++ reprEntries xs ++ "\x7d"
  | pyList xs => "[" ++ reprItems xs ++ "]"
  | pyInt n => toString n
  | pyFloat q => toString q
  | pyStr s => squote ++ s ++ squote
  | nbtCompound xs => "Compound(\x7b" ++ reprEntries xs ++ "\x7d)"
  | nbtList xs => "List([" ++ reprItems xs ++ "])"
  | nbtByteArray xs => "ByteArray(" ++ toString xs ++ ")"
  | nbtIntArray xs => "IntArray(" ++ toString xs ++ ")"
  | nbtLongArray xs => "LongArray(" ++ toString xs ++ ")"
  | nbtByte n => "Byte(" ++ toString n ++ ")"
  | nbtShort n => "Short(" ++ toString n ++ ")"
  | nbtInt n => "Int(" ++ toString n ++ ")"
  | nbtLong n => "Long(" ++ toString n ++ ")"
  | nbtFloat q => "Float(" ++ toString q ++ ")"
  | nbtDouble q => "Double(" ++ toString q ++ ")"
  | nbtString s => "String(" ++ squote ++ s ++ squote ++ ")"
  | nbtOther s => s

/-- Comma-separated `repr` rendering of dict entries. -/
def reprEntries : List (String × PyValue) → String
  | [] => ""
  | [(k, v)] => squote ++ k ++ squote ++ ": " ++ pyReprV v
  | (k, v) :: rest => squote ++ k ++ squote ++ ": " ++ pyReprV v ++ ", " ++ reprEntries rest

/-- Comma-separated `repr` rendering of list items. -/
def reprItems : List PyValue → String
  | [] => ""
  | [v] => pyReprV v
  | v :: rest => pyReprV v ++ ", " ++ reprItems rest

end

/-- Python `str` of a value.  It differs from `repr` on plain strings and
on the nbtlib scalar tags (which subclass `str`, `int` and `float`, so
`str` renders their payload). -/
def strFn : PyValue → String
  | pyStr s => s
  | nbtString s => s
  | nbtOther s => s
  | nbtByte n => toString n
  | nbtShort n => toString n
  | nbtInt n => toString n
  | nbtLong n => toString n
  | nbtFloat q => toString q
  | nbtDouble q => toString q
  | v => pyReprV v

mutual

/-- Embedding of `nbt_to_json` (`api/process_scoreboard.py`, lines 15-38).
The `isinstance` chain matches exactly the nbtlib tag objects, since the
plain Python values produced as output are not instances of the nbtlib
tag subclasses; every other input — including all plain values — falls
through to the final branch, which returns `str` of the input. -/
def nbt_to_json : PyValue → PyValue
  | nbtCompound xs => pyDict (jsonEntries xs)
  | nbtList xs => pyList (jsonItems xs)
  | nbtByteArray xs => pyList (xs.map pyInt)
  | nbtIntArray xs => pyList (xs.map pyInt)
  | nbtLongArray xs => pyList (xs.map pyInt)
  | nbtByte n => pyInt n
  | nbtShort n => pyInt n
  | nbtInt n => pyInt n
  | nbtLong n => pyInt n
  | nbtFloat q => pyFloat q
  | nbtDouble q => pyFloat q
  | nbtString s => pyStr s
  | v => pyStr (strFn v)

/-- Recursive conversion of compound entries (the dict comprehension in
`nbt_to_json`). -/
def jsonEntries : List (String × PyValue) → List (String × PyValue)
  | [] => []
  | (k, v) :: rest => (k, nbt_to_json v) :: jsonEntries rest

/-- Recursive conversion of list items (the list comprehension in
`nbt_to_json`). -/
def jsonItems : List PyValue → List PyValue
  | [] => []
  | v :: rest => nbt_to_json v :: jsonItems rest

end

/-- A value is plain when it is one of the five JSON-shaped Python values
(dict, list, int, float, str) rather than an nbtlib tag object. -/
def isPlain : PyValue → Bool
  | pyDict _ => true
  | pyList _ => true
  | pyInt _ => true
  | pyFloat _ => true
  | pyStr _ => true
  | _ => false

/-! ### Grouping (`api/process_scoreboard.py`, lines 81-138) -/

/-- A score record: a Python dict with string keys, in insertion order. -/
abbrev Record := List (String × PyValue)

/-- Python `dict.get(key)`: the value stored at `key`, if present. -/
def dictGet : Record → String → Option PyValue
  | [], _ => none
  | (k, v) :: rest, key => if k = key then some v else dictGet rest key

/-- Python `dict.pop(key, None)` on a copy: drop the entry at `key`
(dict keys are unique, so at most one entry matches; on an association
list this drops the first match). -/
def popKey (key : String) : Record → Record
  | [] => []
  | (k, v) :: rest => if k = key then rest else (k, v) :: popKey key rest

/-- Embedding of `clean_score_entry` (lines 81-100): copy the record,
pop `Locked`, then pop `Name`. -/
def clean_score_entry (score_entry : Record) : Record :=
  popKey "Name" (popKey "Locked" score_entry)

/-- The grouping key of a record: `score_entry.get("Name", "未知玩家")`. -/
def recName (score_entry : Record) : PyValue :=
  (dictGet score_entry "Name").getD (pyStr "未知玩家")

/-- The grouped mapping: entity key to its ordered records, in key
insertion order (Python `defaultdict`). -/
abbrev Grouped := List (PyValue × List Record)

/-- `grouped[key].append(entry)` on a `defaultdict(list)`: extend the
group of `key` if present, otherwise create it at the end. -/
def appendGroup : Grouped → PyValue → Record → Grouped
  | [], key, entry => [(key, [entry])]
  | (k, g) :: rest, key, entry =>
      if k = key then (k, g ++ [entry]) :: rest
      else (k, g) :: appendGroup rest key entry

/-- The grouping loop of `group_scores_by_player`, processing records
left to right into the accumulated mapping. -/
def groupAux : Grouped → List Record → Grouped
  | acc, [] => acc
  | acc, r :: rest => groupAux (appendGroup acc (recName r) (clean_score_entry r)) rest

/-- Embedding of `group_scores_by_player` (lines 103-138), restricted to
its loop over the `PlayerScores` records (the surrounding extraction of
`data.PlayerScores` from the loaded JSON file and the empty-input early
return, which also yields the empty mapping, are I/O plumbing). -/
def group_scores_by_player (player_scores : List Record) : Grouped :=
  groupAux [] player_scores

/-- Lookup in the grouped mapping. -/
def glookup : Grouped → PyValue → Option (List Record)
  | [], _ => none
  | (k, g) :: rest, key => if k = key then some g else glookup rest key

/-- Reference partition, following the spec: the group of `key` holds
the cleaned copies of exactly the records whose `Name` (defaulted)
equals `key`, in input order. -/
def groupedRef (player_scores : List Record) (key : PyValue) : Option (List Record) :=
  let f := (player_scores.filter (fun r => recName r = key)).map clean_score_entry
  if f = [] then none else some f

/-- First occurrences of a list of keys, in order of first appearance. -/
def dedupKeys : List PyValue → List PyValue
  | [] => []
  | k :: rest => k :: (dedupKeys rest).filter (fun x => x ≠ k)

/-! ### Aggregation (`api/rankings.py`, lines 12-48) -/

/-- Python `==` between a pipeline value and a string literal. -/
def isStrEq (v : PyValue) (s : String) : Bool :=
  match v with
  | pyStr t => t == s
  | _ => false

/-- Numeric reading of a score value.  Python would raise a `TypeError`
on a non-numeric score in the additive branches; non-integer scores are
outside the modelled domain, and the aggregation theorems restrict to
integer-scored records via `intScored`. -/
def scoreVal : PyValue → Int
  | pyInt n => n
  | _ => 0

/-- `entry.get("Score", 0)` as an integer. -/
def entryScore (entry : Record) : Int :=
  scoreVal ((dictGet entry "Score").getD (pyInt 0))

/-- `entry.get("Objective", "")`. -/
def entryObjective (entry : Record) : PyValue :=
  (dictGet entry "Objective").getD (pyStr "")

/-- The statistics struct built by `calculate_player_stats`. -/
structure PlayerStats where
  play_time_seconds : Int
  games_played : Int
  wins : Int
  kills : Int
  deaths : Int
  deriving DecidableEq

/-- One iteration of the `calculate_player_stats` loop. -/
def statsStep (stats : PlayerStats) (entry : Record) : PlayerStats :=
  let objective := entryObjective entry
  let score := entryScore entry
  if isStrEq objective "PlayTime.Hour" then
    { stats with play_time_seconds := stats.play_time_seconds + score * 3600 }
  else if isStrEq objective "PlayTime.Min" then
    { stats with play_time_seconds := stats.play_time_seconds + score * 60 }
  else if isStrEq objective "PlayTime.Sec" then
    { stats with play_time_seconds := stats.play_time_seconds + score }
  else if isStrEq objective "CompletedCount" then
    { stats with games_played := score }
  else if isStrEq objective "WinCount" then
    { stats with wins := score }
  else if isStrEq objective "KilledCount" then
    { stats with kills := score }
  else if isStrEq objective "DeathCount" then
    { stats with deaths := score }
  else
    stats

/-- Embedding of `calculate_player_stats` (lines 12-48): zero-initialized
stats updated by a single left-to-right pass over the records. -/
def calculate_player_stats (player_data : List Record) : PlayerStats :=
  player_data.foldl statsStep ⟨0, 0, 0, 0, 0⟩

/-- Reference contribution of one record to `play_time_seconds`,
following the spec table: hours weigh 3600, minutes 60, seconds 1,
anything else 0. -/
def timeContrib (entry : Record) : Int :=
  if isStrEq (entryObjective entry) "PlayTime.Hour" then entryScore entry * 3600
  else if isStrEq (entryObjective entry) "PlayTime.Min" then entryScore entry * 60
  else if isStrEq (entryObjective entry) "PlayTime.Sec" then entryScore entry
  else 0

/-- Reference last-write-wins reading of an assigned objective: the
score of the last record carrying that objective, or 0 if none does. -/
def lastAssign (objective : String) (player_data : List Record) : Int :=
  ((player_data.filter (fun r => isStrEq (entryObjective r) objective)).map entryScore).getLastD 0

/-- All present `Score` values are integers (the typed domain of the
spec's `ScoreRecord`). -/
def intScored (player_data : List Record) : Bool :=
  player_data.all fun r =>
    match dictGet r "Score" with
    | none => true
    | some (pyInt _) => true
    | some _ => false

/-- All present `Score` values are nonnegative integers. -/
def nonnegScored (player_data : List Record) : Bool :=
  player_data.all fun r =>
    match dictGet r "Score" with
    | none => true
    | some (pyInt n) => decide (0 ≤ n)
    | some _ => false

/-! ### Rankings (`api/rankings.py`, lines 51-162, and
`main.py`, lines 132-156) -/

/-- One ranking list entry, as appended by `generate_rankings`.  The
`formatted`, `hours`, `minutes` and `seconds` fields are only carried by
the play-time entries; the float-formatted strings of the kd-ratio and
win-rate entries (`.2f` and `.1f%` renderings) are not modelled. -/
structure RankingEntry where
  player : String
  value : ℚ
  formatted : Option String
  hours : Option Int
  minutes : Option Int
  seconds : Option Int
  deriving DecidableEq

/-- The seven ranking lists; `kd` models the `kd_ratio` key. -/
structure Rankings where
  play_time : List RankingEntry
  games_played : List RankingEntry
  wins : List RankingEntry
  kills : List RankingEntry
  deaths : List RankingEntry
  kd : List RankingEntry
  win_rate : List RankingEntry
  deriving DecidableEq

/-- Python `f"{n:02d}"`: zero-pad to at least two characters. -/
def pad2 (n : Int) : String :=
  let s := toString n
  if s.length < 2 then "0" ++ s else s

/-- The play-time entry of one player: value plus `HH:MM:SS` formatting
by floor division (Python `//` and `%` are `Int.fdiv` and `Int.fmod`). -/
def mkPlayTimeEntry (player : String) (stats : PlayerStats) : RankingEntry :=
  let t := stats.play_time_seconds
  let hours := t.fdiv 3600
  let minutes := (t.fmod 3600).fdiv 60
  let seconds := t.fmod 60
  { player := player, value := (t : ℚ),
    formatted := some (pad2 hours ++ ":" ++ pad2 minutes ++ ":" ++ pad2 seconds),
    hours := some hours, minutes := some minutes, seconds := some seconds }

/-- A plain player/value entry. -/
def plainEntry (player : String) (v : ℚ) : RankingEntry :=
  { player := player, value := v, formatted := none,
    hours := none, minutes := none, seconds := none }

/-- The kd-ratio derivation (lines 101-103): deaths of 0 (or below)
treated as 1 to avoid division by zero. -/
def kdOf (stats : PlayerStats) : ℚ :=
  (stats.kills : ℚ) / (if stats.deaths > 0 then (stats.deaths : ℚ) else 1)

/-- The win-rate derivation (lines 105-107): same zero-guard policy. -/
def winRateOf (stats : PlayerStats) : ℚ :=
  ((stats.wins : ℚ) / (if stats.games_played > 0 then (stats.games_played : ℚ) else 1)) * 100

/-- The entry-building loop of `generate_rankings` (lines 92-148): one
entry per player appended to each of the seven lists, in the iteration
order of the stats mapping. -/
def buildEntries (player_stats : List (String × PlayerStats)) : Rankings :=
  { play_time := player_stats.map fun p => mkPlayTimeEntry p.1 p.2
    games_played := player_stats.map fun p => plainEntry p.1 (p.2.games_played : ℚ)
    wins := player_stats.map fun p => plainEntry p.1 (p.2.wins : ℚ)
    kills := player_stats.map fun p => plainEntry p.1 (p.2.kills : ℚ)
    deaths := player_stats.map fun p => plainEntry p.1 (p.2.deaths : ℚ)
    kd := player_stats.map fun p => plainEntry p.1 (kdOf p.2)
    win_rate := player_stats.map fun p => plainEntry p.1 (winRateOf p.2) }

/-- Python `list.sort(key=..., reverse=True)`: a stable sort into
descending value order.  A stable sort's output is uniquely determined
by the order and stability, so Mathlib's insertion sort (which inserts
before strictly-greater elements only) is a faithful model. -/
def sortDesc (l : List RankingEntry) : List RankingEntry :=
  l.insertionSort fun a b => b.value ≤ a.value

/-- Python `list.sort(key=...)`: a stable sort into ascending order. -/
def sortAsc (l : List RankingEntry) : List RankingEntry :=
  l.insertionSort fun a b => a.value ≤ b.value

/-- The sorting pass of `generate_rankings` (lines 150-157): descending
everywhere except `deaths`, which sorts ascending. -/
def sortRankings (rankings : Rankings) : Rankings :=
  { play_time := sortDesc rankings.play_time
    games_played := sortDesc rankings.games_played
    wins := sortDesc rankings.wins
    kills := sortDesc rankings.kills
    deaths := sortAsc rankings.deaths
    kd := sortDesc rankings.kd
    win_rate := sortDesc rankings.win_rate }

/-- Python `str.startswith`, expressed on the character sequences of the
strings (equivalent to `String.startsWith`, whose byte-level
implementation has no reduction behavior inside the logic). -/
def strStarts (s p : String) : Bool :=
  p.data.isPrefixOf s.data

/-- The sentinel filter on entity names used by both `generate_rankings`
(lines 69-76) and `DataManager.get_player_list` (lines 143-152): keep a
name when it is non-empty and does not start with a reserved marker. -/
def goodName (name : String) : Bool :=
  (name != "") && ! strStarts name "$" && ! strStarts name "#"
    && ! strStarts name "%" && ! strStarts name "["

/-- The filtering loop of `generate_rankings` (lines 69-76): eligible
entries of the grouped mapping, each reduced to its statistics. -/
def filterStats (all_player_data : List (String × List Record)) : List (String × PlayerStats) :=
  (all_player_data.filter fun p => goodName p.1).map fun p => (p.1, calculate_player_stats p.2)

/-- Embedding of `generate_rankings` (lines 51-162), restricted to its
computation on the loaded grouped mapping (the surrounding file read and
the `except` wrapper are I/O plumbing; the error tuple is an `Except`). -/
def generate_rankings (all_player_data : List (String × List Record)) : Except String Rankings :=
  let player_stats := filterStats all_player_data
  if player_stats.isEmpty then Except.error "未找到有效的玩家数据"
  else Except.ok (sortRankings (buildEntries player_stats))

/-- Embedding of `DataManager.get_player_list` (`main.py`, lines
132-156), restricted to its computation on the loaded grouped mapping:
the eligible names, sorted. -/
def get_player_list (player_data : List (String × List Record)) : List String :=
  ((player_data.map Prod.fst).filter goodName).insertionSort fun a b => a ≤ b

instance : IsTotal RankingEntry fun a b => b.value ≤ a.value :=
  ⟨fun a b => le_total b.value a.value⟩

instance : IsTrans RankingEntry fun a b => b.value ≤ a.value :=
  ⟨fun _ _ _ h1 h2 => le_trans h2 h1⟩

instance : IsTotal RankingEntry fun a b => a.value ≤ b.value :=
  ⟨fun a b => le_total a.value b.value⟩

instance : IsTrans RankingEntry fun a b => a.value ≤ b.value :=
  ⟨fun _ _ _ h1 h2 => le_trans h1 h2⟩

/-! ### Theorems -/

theorem nbt_to_json_isPlain (v : PyValue) : isPlain (nbt_to_json v) = true := by
  cases v <;> simp [nbt_to_json, isPlain]

theorem strFn_pyStr (s : String) : strFn (pyStr s) = s := by
  simp [strFn]

theorem nbt_to_json_pyStr (s : String) : nbt_to_json (pyStr s) = pyStr s := by
  simp [nbt_to_json, strFn]

theorem nbt_to_json_of_isPlain (v : PyValue) (h : isPlain v = true) :
    nbt_to_json v = pyStr (strFn v) := by
  cases v <;> simp_all [isPlain, nbt_to_json]

/-- C1 (counterexample): the tree-to-JSON projection is not idempotent.
The plain integer 5 is already in the output shape, yet projecting it
returns the string "5" (plain values are not instances of the nbtlib tag
classes, so they fall through to the `str` fallback); likewise
`project (project x)` differs from `project x` at the decodable input
`Int(5)`. -/
theorem nbt_to_json_not_idempotent :
    nbt_to_json (pyInt 5) ≠ pyInt 5 ∧
    nbt_to_json (nbt_to_json (nbtInt 5)) ≠ nbt_to_json (nbtInt 5) := by
  constructor <;> simp [nbt_to_json, strFn]

/-- C1 (amended): re-projection returns a value unchanged only when that
value is a plain string; on every other output it returns the `str`
rendering of the value instead.  Consequently projection of an already
projected value always yields a string, the double projection is a fixed
point of the projector, and projection is idempotent from the second
application on: `project ∘ project ∘ project = project ∘ project`. -/
theorem nbt_to_json_amended :
    (∀ s, nbt_to_json (pyStr s) = pyStr s) ∧
    (∀ x, isPlain (nbt_to_json x) = true) ∧
    (∀ x, isPlain x = true → nbt_to_json x = pyStr (strFn x)) ∧
    (∀ x, nbt_to_json (nbt_to_json (nbt_to_json x)) = nbt_to_json (nbt_to_json x)) := by
  refine ⟨nbt_to_json_pyStr, nbt_to_json_isPlain, nbt_to_json_of_isPlain, fun x => ?_⟩
  rw [nbt_to_json_of_isPlain _ (nbt_to_json_isPlain x), nbt_to_json_pyStr]

/-! Grouping lemmas. -/

theorem glookup_appendGroup (acc : Grouped) (key : PyValue) (entry : Record) (k : PyValue) :
    glookup (appendGroup acc key entry) k =
      if key = k then some ((glookup acc k).getD [] ++ [entry]) else glookup acc k := by
  induction acc with
  | nil =>
      by_cases hk : key = k <;> simp [appendGroup, glookup, hk]
  | cons p rest ih =>
      obtain ⟨k1, g1⟩ := p
      by_cases h1 : k1 = key
      · subst h1
        by_cases hk : k1 = k <;> simp [appendGroup, glookup, hk]
      · by_cases hk : k1 = k
        · subst hk
          have h2 : ¬ key = k1 := fun h => h1 h.symm
          simp [appendGroup, glookup, h1, h2]
        · simp [appendGroup, glookup, h1, hk, ih]

theorem map_fst_appendGroup (acc : Grouped) (key : PyValue) (entry : Record) :
    (appendGroup acc key entry).map Prod.fst =
      if glookup acc key = none then acc.map Prod.fst ++ [key] else acc.map Prod.fst := by
  induction acc with
  | nil => simp [appendGroup, glookup]
  | cons p rest ih =>
      obtain ⟨k1, g1⟩ := p
      by_cases h1 : k1 = key
      · simp [appendGroup, glookup, h1]
      · simp only [appendGroup, glookup, if_neg h1, List.map_cons, ih]
        by_cases h2 : glookup rest key = none <;> simp [h2]

theorem sumLen_appendGroup (acc : Grouped) (key : PyValue) (entry : Record) :
    ((appendGroup acc key entry).map fun p => p.2.length).sum
      = ((acc.map fun p => p.2.length).sum) + 1 := by
  induction acc with
  | nil => simp [appendGroup]
  | cons p rest ih =>
      obtain ⟨k1, g1⟩ := p
      by_cases h1 : k1 = key
      · simp [appendGroup, h1]
        omega
      · simp [appendGroup, h1, ih]
        omega

theorem glookup_groupAux_some (records : List Record) :
    ∀ (acc : Grouped) (k : PyValue) (g : List Record), glookup acc k = some g →
      glookup (groupAux acc records) k
        = some (g ++ (records.filter fun r => recName r = k).map clean_score_entry) := by
  induction records with
  | nil =>
      intro acc k g h
      simp [groupAux, h]
  | cons r rest ih =>
      intro acc k g h
      by_cases hk : recName r = k
      · have h2 : glookup (appendGroup acc (recName r) (clean_score_entry r)) k
            = some (g ++ [clean_score_entry r]) := by
          rw [glookup_appendGroup, if_pos hk, h]
          rfl
        rw [groupAux, ih _ _ _ h2]
        simp [hk, List.filter_cons]
      · have h2 : glookup (appendGroup acc (recName r) (clean_score_entry r)) k = some g := by
          rw [glookup_appendGroup, if_neg hk, h]
        rw [groupAux, ih _ _ _ h2]
        simp [hk, List.filter_cons]

theorem glookup_groupAux_none (records : List Record) :
    ∀ (acc : Grouped) (k : PyValue), glookup acc k = none →
      glookup (groupAux acc records) k = groupedRef records k := by
  induction records with
  | nil =>
      intro acc k h
      simp [groupAux, groupedRef, h]
  | cons r rest ih =>
      intro acc k h
      by_cases hk : recName r = k
      · have h2 : glookup (appendGroup acc (recName r) (clean_score_entry r)) k
            = some [clean_score_entry r] := by
          rw [glookup_appendGroup, if_pos hk, h]
          rfl
        rw [groupAux, glookup_groupAux_some rest _ _ _ h2]
        simp [groupedRef, hk, List.filter_cons]
      · have h2 : glookup (appendGroup acc (recName r) (clean_score_entry r)) k = none := by
          rw [glookup_appendGroup, if_neg hk, h]
        rw [groupAux, ih _ _ h2]
        simp [groupedRef, hk, List.filter_cons]

theorem map_fst_groupAux (records : List Record) :
    ∀ acc : Grouped,
      (groupAux acc records).map Prod.fst
        = acc.map Prod.fst
          ++ (dedupKeys (records.map recName)).filter fun k => (glookup acc k).isNone := by
  induction records with
  | nil =>
      intro acc
      simp [groupAux, dedupKeys]
  | cons r rest ih =>
      intro acc
      rw [groupAux, ih, map_fst_appendGroup]
      have hpred : ∀ k, (glookup (appendGroup acc (recName r) (clean_score_entry r)) k).isNone
          = ((glookup acc k).isNone && !(recName r = k : Bool)) := by
        intro k
        rw [glookup_appendGroup]
        by_cases hkk : recName r = k <;> simp [hkk]
      have hfilter :
          (dedupKeys (rest.map recName)).filter
              (fun k => (glookup (appendGroup acc (recName r) (clean_score_entry r)) k).isNone)
            = ((dedupKeys (rest.map recName)).filter fun x => x ≠ recName r).filter
                fun k => (glookup acc k).isNone := by
        rw [List.filter_filter]
        apply List.filter_congr
        intro x _
        rw [hpred]
        by_cases hx : recName r = x
        · simp [hx]
        · have hx2 : ¬ x = recName r := fun he => hx he.symm
          simp [hx, hx2]
      by_cases h : glookup acc (recName r) = none
      · rw [if_pos h]
        simp only [List.map_cons, dedupKeys, List.filter_cons, hfilter]
        have hgood : (glookup acc (recName r)).isNone = true := by simp [h]
        simp [hgood, List.append_assoc]
      · rw [if_neg h]
        simp only [List.map_cons, dedupKeys, List.filter_cons, hfilter]
        have hbad : (glookup acc (recName r)).isNone = false := by
          cases hg : glookup acc (recName r)
          · exact absurd hg h
          · simp
        simp [hbad]

theorem sumLen_groupAux (records : List Record) :
    ∀ acc : Grouped,
      ((groupAux acc records).map fun p => p.2.length).sum
        = ((acc.map fun p => p.2.length).sum) + records.length := by
  induction records with
  | nil =>
      intro acc
      simp [groupAux]
  | cons r rest ih =>
      intro acc
      rw [groupAux, ih, sumLen_appendGroup]
      simp only [List.length_cons]
      omega

/-! Record-cleaning lemmas. -/

theorem popKey_sublist (key : String) (r : Record) : (popKey key r).Sublist r := by
  induction r with
  | nil => simp [popKey]
  | cons kv rest ih =>
      obtain ⟨k, v⟩ := kv
      by_cases h : k = key
      · simp only [popKey, if_pos h]
        exact List.sublist_cons_self _ _
      · simp only [popKey, if_neg h]
        exact ih.cons₂ _

theorem dictGet_eq_none_of_not_mem (l : Record) (key : String)
    (h : key ∉ l.map Prod.fst) : dictGet l key = none := by
  induction l with
  | nil => simp [dictGet]
  | cons kv rest ih =>
      obtain ⟨k, v⟩ := kv
      simp only [List.map_cons, List.mem_cons, not_or] at h
      have hk : ¬ k = key := fun he => h.1 he.symm
      rw [dictGet, if_neg hk]
      exact ih h.2

theorem popKey_eq_filter (key : String) (r : Record) (h : (r.map Prod.fst).Nodup) :
    popKey key r = r.filter fun kv => kv.1 ≠ key := by
  induction r with
  | nil => simp [popKey]
  | cons kv rest ih =>
      obtain ⟨k, v⟩ := kv
      simp only [List.map_cons, List.nodup_cons] at h
      by_cases hk : k = key
      · subst hk
        rw [popKey, if_pos rfl, List.filter_cons, if_neg (by simp)]
        refine ((List.filter_eq_self).mpr ?_).symm
        intro kv hkv
        have hmem : kv.1 ∈ rest.map Prod.fst := List.mem_map_of_mem Prod.fst hkv
        simp only [ne_eq, decide_eq_true_eq]
        exact fun he => h.1 (he ▸ hmem)
      · rw [popKey, if_neg hk, List.filter_cons, if_pos (by simp [hk]), ih h.2]

theorem clean_score_entry_eq_filter (r : Record) (h : (r.map Prod.fst).Nodup) :
    clean_score_entry r = r.filter fun kv => kv.1 ≠ "Locked" ∧ kv.1 ≠ "Name" := by
  unfold clean_score_entry
  rw [popKey_eq_filter "Locked" r h]
  have h2 : ((r.filter fun kv => kv.1 ≠ "Locked").map Prod.fst).Nodup :=
    ((List.filter_sublist r).map Prod.fst).nodup h
  rw [popKey_eq_filter "Name" _ h2, List.filter_filter]
  apply List.filter_congr
  intro kv _
  by_cases hL : kv.1 = "Locked" <;> by_cases hN : kv.1 = "Name" <;> simp [hL, hN]

theorem dictGet_popKey_self (key : String) (r : Record) (h : (r.map Prod.fst).Nodup) :
    dictGet (popKey key r) key = none := by
  induction r with
  | nil => simp [popKey, dictGet]
  | cons kv rest ih =>
      obtain ⟨k, v⟩ := kv
      simp only [List.map_cons, List.nodup_cons] at h
      by_cases hk : k = key
      · subst hk
        rw [popKey, if_pos rfl]
        exact dictGet_eq_none_of_not_mem rest k h.1
      · rw [popKey, if_neg hk, dictGet, if_neg hk]
        exact ih h.2

theorem dictGet_popKey_of_ne (key k2 : String) (hne : ¬ k2 = key) (r : Record) :
    dictGet (popKey key r) k2 = dictGet r k2 := by
  induction r with
  | nil => simp [popKey]
  | cons kv rest ih =>
      obtain ⟨k, v⟩ := kv
      by_cases hk : k = key
      · subst hk
        rw [popKey, if_pos rfl, dictGet, if_neg (fun he => hne he.symm)]
      · rw [popKey, if_neg hk, dictGet, dictGet]
        by_cases hk2 : k = k2
        · simp [hk2]
        · simp [hk2, ih]

theorem dictGet_clean_score_entry (r : Record) (h : (r.map Prod.fst).Nodup) :
    dictGet (clean_score_entry r) "Locked" = none ∧
      dictGet (clean_score_entry r) "Name" = none := by
  unfold clean_score_entry
  constructor
  · rw [dictGet_popKey_of_ne "Name" "Locked" (by decide)]
    exact dictGet_popKey_self "Locked" r h
  · apply dictGet_popKey_self
    exact ((popKey_sublist "Locked" r).map Prod.fst).nodup h

theorem dedupKeys_nodup (l : List PyValue) : (dedupKeys l).Nodup := by
  induction l with
  | nil => simp [dedupKeys]
  | cons k rest ih =>
      simp only [dedupKeys, List.nodup_cons]
      refine ⟨fun hmem => ?_, ih.filter _⟩
      have := (List.mem_filter.mp hmem).2
      simp at this

theorem glookup_of_mem (g : Grouped) (hnd : (g.map Prod.fst).Nodup)
    {p : PyValue × List Record} (hp : p ∈ g) : glookup g p.1 = some p.2 := by
  induction g with
  | nil => cases hp
  | cons q rest ih =>
      obtain ⟨k1, g1⟩ := q
      simp only [List.map_cons, List.nodup_cons] at hnd
      rcases List.mem_cons.mp hp with h | h
      · subst h
        simp [glookup]
      · have hne : ¬ k1 = p.1 :=
          fun he => hnd.1 (he ▸ List.mem_map_of_mem Prod.fst h)
        rw [glookup, if_neg hne]
        exact ih hnd.2 h

/-- C2: `group_scores_by_player` computes the reference partition.  For
a sequence of records with duplicate-free keys (Python dicts): the group
of every key is exactly the cleaned copies, in input order, of the
records whose `Name` (defaulting to the placeholder `"未知玩家"`) equals
that key; the group keys are the record names in order of first
appearance; the group sizes add up to the input length; cleaning removes
exactly the `Locked` and `Name` keys and drops no other key; and no
stored record retains a `Locked` or `Name` key. -/
theorem group_scores_correct (records : List Record)
    (h : ∀ r ∈ records, (r.map Prod.fst).Nodup) :
    (∀ k, glookup (group_scores_by_player records) k = groupedRef records k) ∧
    (group_scores_by_player records).map Prod.fst = dedupKeys (records.map recName) ∧
    ((group_scores_by_player records).map fun p => p.2.length).sum = records.length ∧
    (∀ r ∈ records, clean_score_entry r
        = r.filter fun kv => kv.1 ≠ "Locked" ∧ kv.1 ≠ "Name") ∧
    (∀ p ∈ group_scores_by_player records, ∀ r ∈ p.2,
        dictGet r "Locked" = none ∧ dictGet r "Name" = none) := by
  have hcontent : ∀ k, glookup (group_scores_by_player records) k = groupedRef records k :=
    fun k => glookup_groupAux_none records [] k rfl
  have hkeys : (group_scores_by_player records).map Prod.fst
      = dedupKeys (records.map recName) := by
    have hmf := map_fst_groupAux records []
    simpa [group_scores_by_player, glookup] using hmf
  have hsum : ((group_scores_by_player records).map fun p => p.2.length).sum
      = records.length := by
    have hsl := sumLen_groupAux records []
    simpa [group_scores_by_player] using hsl
  refine ⟨hcontent, hkeys, hsum, fun r hr => clean_score_entry_eq_filter r (h r hr), ?_⟩
  intro p hp r hr
  have hnd : ((group_scores_by_player records).map Prod.fst).Nodup := by
    rw [hkeys]
    exact dedupKeys_nodup _
  have hlook := glookup_of_mem _ hnd hp
  rw [hcontent p.1] at hlook
  simp only [groupedRef] at hlook
  have hp2 : p.2 = (records.filter fun q => recName q = p.1).map clean_score_entry := by
    by_cases hf : ((records.filter fun q => recName q = p.1).map clean_score_entry) = []
    · rw [if_pos hf] at hlook
      exact absurd hlook (by simp)
    · rw [if_neg hf] at hlook
      exact (Option.some.inj hlook).symm
  rw [hp2] at hr
  rcases List.mem_map.mp hr with ⟨r0, hr0, hre⟩
  have hr0rec : r0 ∈ records := (List.mem_filter.mp hr0).1
  rw [← hre]
  exact dictGet_clean_score_entry r0 (h r0 hr0rec)

/-- Witness for C2: a concrete two-record input (the second record has
no `Name` and falls back to the placeholder group); the group sizes add
up to the input length 2. -/
theorem group_scores_correct_witness :
    ((group_scores_by_player
        [[("Name", pyStr "A"), ("Objective", pyStr "KilledCount"),
          ("Score", pyInt 1), ("Locked", pyInt 0)],
         [("Objective", pyStr "DeathCount"), ("Score", pyInt 2)]]).map
        fun p => p.2.length).sum = 2 :=
  (group_scores_correct
    [[("Name", pyStr "A"), ("Objective", pyStr "KilledCount"),
      ("Score", pyInt 1), ("Locked", pyInt 0)],
     [("Objective", pyStr "DeathCount"), ("Score", pyInt 2)]] (by decide)).2.2.1

/-! Aggregation lemmas. -/

theorem isStrEq_ne {v : PyValue} {a b : String} (h : isStrEq v a = true) (hne : ¬ b = a) :
    isStrEq v b = false := by
  cases v <;> simp_all [isStrEq]
  exact fun he => hne he.symm

theorem statsStep_play (s : PlayerStats) (r : Record) :
    (statsStep s r).play_time_seconds = s.play_time_seconds + timeContrib r := by
  simp only [statsStep, timeContrib]
  split_ifs <;> simp

theorem statsStep_games (s : PlayerStats) (r : Record) :
    (statsStep s r).games_played
      = if isStrEq (entryObjective r) "CompletedCount" then entryScore r
        else s.games_played := by
  by_cases h : isStrEq (entryObjective r) "CompletedCount" = true
  · have h1 := isStrEq_ne h (show ¬ "PlayTime.Hour" = "CompletedCount" by decide)
    have h2 := isStrEq_ne h (show ¬ "PlayTime.Min" = "CompletedCount" by decide)
    have h3 := isStrEq_ne h (show ¬ "PlayTime.Sec" = "CompletedCount" by decide)
    simp [statsStep, h, h1, h2, h3]
  · have hb : isStrEq (entryObjective r) "CompletedCount" = false := by simpa using h
    simp only [statsStep, hb, Bool.false_eq_true, if_false]
    split_ifs <;> rfl

theorem statsStep_wins (s : PlayerStats) (r : Record) :
    (statsStep s r).wins
      = if isStrEq (entryObjective r) "WinCount" then entryScore r else s.wins := by
  by_cases h : isStrEq (entryObjective r) "WinCount" = true
  · have h1 := isStrEq_ne h (show ¬ "PlayTime.Hour" = "WinCount" by decide)
    have h2 := isStrEq_ne h (show ¬ "PlayTime.Min" = "WinCount" by decide)
    have h3 := isStrEq_ne h (show ¬ "PlayTime.Sec" = "WinCount" by decide)
    have h4 := isStrEq_ne h (show ¬ "CompletedCount" = "WinCount" by decide)
    simp [statsStep, h, h1, h2, h3, h4]
  · have hb : isStrEq (entryObjective r) "WinCount" = false := by simpa using h
    simp only [statsStep, hb, Bool.false_eq_true, if_false]
    split_ifs <;> rfl

theorem statsStep_kills (s : PlayerStats) (r : Record) :
    (statsStep s r).kills
      = if isStrEq (entryObjective r) "KilledCount" then entryScore r else s.kills := by
  by_cases h : isStrEq (entryObjective r) "KilledCount" = true
  · have h1 := isStrEq_ne h (show ¬ "PlayTime.Hour" = "KilledCount" by decide)
    have h2 := isStrEq_ne h (show ¬ "PlayTime.Min" = "KilledCount" by decide)
    have h3 := isStrEq_ne h (show ¬ "PlayTime.Sec" = "KilledCount" by decide)
    have h4 := isStrEq_ne h (show ¬ "CompletedCount" = "KilledCount" by decide)
    have h5 := isStrEq_ne h (show ¬ "WinCount" = "KilledCount" by decide)
    simp [statsStep, h, h1, h2, h3, h4, h5]
  · have hb : isStrEq (entryObjective r) "KilledCount" = false := by simpa using h
    simp only [statsStep, hb, Bool.false_eq_true, if_false]
    split_ifs <;> rfl

theorem statsStep_deaths (s : PlayerStats) (r : Record) :
    (statsStep s r).deaths
      = if isStrEq (entryObjective r) "DeathCount" then entryScore r else s.deaths := by
  by_cases h : isStrEq (entryObjective r) "DeathCount" = true
  · have h1 := isStrEq_ne h (show ¬ "PlayTime.Hour" = "DeathCount" by decide)
    have h2 := isStrEq_ne h (show ¬ "PlayTime.Min" = "DeathCount" by decide)
    have h3 := isStrEq_ne h (show ¬ "PlayTime.Sec" = "DeathCount" by decide)
    have h4 := isStrEq_ne h (show ¬ "CompletedCount" = "DeathCount" by decide)
    have h5 := isStrEq_ne h (show ¬ "WinCount" = "DeathCount" by decide)
    have h6 := isStrEq_ne h (show ¬ "KilledCount" = "DeathCount" by decide)
    simp [statsStep, h, h1, h2, h3, h4, h5, h6]
  · have hb : isStrEq (entryObjective r) "DeathCount" = false := by simpa using h
    simp only [statsStep, hb, Bool.false_eq_true, if_false]
    split_ifs <;> rfl

theorem foldl_statsStep_play (rs : List Record) :
    ∀ s : PlayerStats, (rs.foldl statsStep s).play_time_seconds
      = s.play_time_seconds + (rs.map timeContrib).sum := by
  induction rs with
  | nil =>
      intro s
      simp
  | cons r rest ih =>
      intro s
      rw [List.foldl_cons, ih, statsStep_play, List.map_cons, List.sum_cons]
      omega

theorem foldl_statsStep_assign (field : PlayerStats → Int) (obj : String)
    (hstep : ∀ s r, field (statsStep s r)
      = if isStrEq (entryObjective r) obj then entryScore r else field s) :
    ∀ (rs : List Record) (s : PlayerStats),
      field (rs.foldl statsStep s)
        = ((rs.filter fun r => isStrEq (entryObjective r) obj).map entryScore).getLastD
            (field s) := by
  intro rs
  induction rs with
  | nil =>
      intro s
      simp
  | cons r rest ih =>
      intro s
      rw [List.foldl_cons, ih, hstep, List.filter_cons]
      by_cases h : isStrEq (entryObjective r) obj = true
      · rw [if_pos h, if_pos h, List.map_cons, List.getLastD_cons]
      · rw [if_neg h, if_neg h]

/-- C3: `calculate_player_stats` is a single left-to-right pass in which
the play-time sub-units accumulate additively with weights 3600, 60 and
1, the four count objectives assign last-write-wins, any other objective
is ignored, a record missing `Score` contributes 0, unobserved fields
stay 0, and in particular 2 hours plus 30 minutes aggregate to 9000
seconds.  The domain is records whose present `Score` values are
integers, the typed domain of the spec's `ScoreRecord`. -/
theorem calculate_player_stats_spec (rs : List Record) (h : intScored rs = true) :
    (calculate_player_stats rs).play_time_seconds = (rs.map timeContrib).sum ∧
    (calculate_player_stats rs).games_played = lastAssign "CompletedCount" rs ∧
    (calculate_player_stats rs).wins = lastAssign "WinCount" rs ∧
    (calculate_player_stats rs).kills = lastAssign "KilledCount" rs ∧
    (calculate_player_stats rs).deaths = lastAssign "DeathCount" rs ∧
    (∀ r : Record, dictGet r "Score" = none → entryScore r = 0) ∧
    calculate_player_stats
        [[("Objective", pyStr "PlayTime.Hour"), ("Score", pyInt 2)],
         [("Objective", pyStr "PlayTime.Min"), ("Score", pyInt 30)]]
      = ⟨9000, 0, 0, 0, 0⟩ := by
  refine ⟨?_, ?_, ?_, ?_, ?_, ?_, by decide⟩
  · have hp := foldl_statsStep_play rs ⟨0, 0, 0, 0, 0⟩
    simpa [calculate_player_stats] using hp
  · exact foldl_statsStep_assign (fun st => st.games_played) "CompletedCount"
      statsStep_games rs ⟨0, 0, 0, 0, 0⟩
  · exact foldl_statsStep_assign (fun st => st.wins) "WinCount"
      statsStep_wins rs ⟨0, 0, 0, 0, 0⟩
  · exact foldl_statsStep_assign (fun st => st.kills) "KilledCount"
      statsStep_kills rs ⟨0, 0, 0, 0, 0⟩
  · exact foldl_statsStep_assign (fun st => st.deaths) "DeathCount"
      statsStep_deaths rs ⟨0, 0, 0, 0, 0⟩
  · intro r hr
    unfold entryScore
    rw [hr]
    rfl

/-- Witness for C3: the spec's additivity example, two time records
aggregating to 9000 seconds. -/
theorem calculate_player_stats_spec_witness :
    calculate_player_stats
        [[("Objective", pyStr "PlayTime.Hour"), ("Score", pyInt 2)],
         [("Objective", pyStr "PlayTime.Min"), ("Score", pyInt 30)]]
      = ⟨9000, 0, 0, 0, 0⟩ :=
  (calculate_player_stats_spec
    [[("Objective", pyStr "PlayTime.Hour"), ("Score", pyInt 2)],
     [("Objective", pyStr "PlayTime.Min"), ("Score", pyInt 30)]]
    (by decide)).2.2.2.2.2.2

/-- C8 (counterexample): aggregated fields are not always nonnegative —
a record assigning a negative `DeathCount` score yields negative deaths,
because the code assigns scores unguarded. -/
theorem aggregate_not_nonneg :
    (calculate_player_stats
        [[("Objective", pyStr "DeathCount"), ("Score", pyInt (-1))]]).deaths = -1 ∧
    ¬ (0 ≤ (calculate_player_stats
        [[("Objective", pyStr "DeathCount"), ("Score", pyInt (-1))]]).deaths) := by
  decide

theorem entryScore_nonneg (rs : List Record) (h : nonnegScored rs = true) :
    ∀ r ∈ rs, 0 ≤ entryScore r := by
  intro r hr
  have hall := (List.all_eq_true.mp h) r hr
  unfold entryScore
  cases hs : dictGet r "Score" with
  | none => simp [scoreVal]
  | some v =>
      rw [hs] at hall
      cases v <;> simp_all [scoreVal]

/-- C8 (amended): every field of the aggregated statistics is a
nonnegative integer provided every present `Score` value is a
nonnegative integer. -/
theorem aggregate_nonneg (rs : List Record) (h : nonnegScored rs = true) :
    0 ≤ (calculate_player_stats rs).play_time_seconds ∧
    0 ≤ (calculate_player_stats rs).games_played ∧
    0 ≤ (calculate_player_stats rs).wins ∧
    0 ≤ (calculate_player_stats rs).kills ∧
    0 ≤ (calculate_player_stats rs).deaths := by
  have hs := entryScore_nonneg rs h
  have hgen : ∀ (l : List Record), (∀ r ∈ l, 0 ≤ entryScore r) → ∀ s : PlayerStats,
      0 ≤ s.play_time_seconds → 0 ≤ s.games_played → 0 ≤ s.wins → 0 ≤ s.kills →
      0 ≤ s.deaths →
      0 ≤ (l.foldl statsStep s).play_time_seconds ∧
      0 ≤ (l.foldl statsStep s).games_played ∧
      0 ≤ (l.foldl statsStep s).wins ∧
      0 ≤ (l.foldl statsStep s).kills ∧
      0 ≤ (l.foldl statsStep s).deaths := by
    intro l
    induction l with
    | nil =>
        intro _ s h1 h2 h3 h4 h5
        simpa using ⟨h1, h2, h3, h4, h5⟩
    | cons r rest ih =>
        intro hall s h1 h2 h3 h4 h5
        have hr0 : 0 ≤ entryScore r := hall r (List.mem_cons_self r rest)
        rw [List.foldl_cons]
        refine ih (fun q hq => hall q (List.mem_cons_of_mem r hq)) _ ?_ ?_ ?_ ?_ ?_
        · rw [statsStep_play]
          have htc : 0 ≤ timeContrib r := by
            unfold timeContrib
            split_ifs <;> omega
          omega
        · rw [statsStep_games]
          split_ifs <;> assumption
        · rw [statsStep_wins]
          split_ifs <;> assumption
        · rw [statsStep_kills]
          split_ifs <;> assumption
        · rw [statsStep_deaths]
          split_ifs <;> assumption
  exact hgen rs hs ⟨0, 0, 0, 0, 0⟩ le_rfl le_rfl le_rfl le_rfl le_rfl

/-- Witness for C8's amended statement at a concrete nonnegative-scored
record list. -/
theorem aggregate_nonneg_witness :
    0 ≤ (calculate_player_stats
        [[("Objective", pyStr "DeathCount"), ("Score", pyInt 3)]]).play_time_seconds ∧
    0 ≤ (calculate_player_stats
        [[("Objective", pyStr "DeathCount"), ("Score", pyInt 3)]]).games_played ∧
    0 ≤ (calculate_player_stats
        [[("Objective", pyStr "DeathCount"), ("Score", pyInt 3)]]).wins ∧
    0 ≤ (calculate_player_stats
        [[("Objective", pyStr "DeathCount"), ("Score", pyInt 3)]]).kills ∧
    0 ≤ (calculate_player_stats
        [[("Objective", pyStr "DeathCount"), ("Score", pyInt 3)]]).deaths :=
  aggregate_nonneg [[("Objective", pyStr "DeathCount"), ("Score", pyInt 3)]] (by decide)

/-! Ranking lemmas. -/

theorem filter_insertionSort {α : Type} (r : α → α → Prop) [DecidableRel r]
    (l : List α) (p : α → Bool) (hp : ∀ a b, p a = true → p b = true → r a b) :
    (l.insertionSort r).filter p = l.filter p := by
  have hpw : (l.filter p).Pairwise r :=
    List.pairwise_of_forall_mem_list fun a ha b hb =>
      hp a b (List.of_mem_filter ha) (List.of_mem_filter hb)
  have hsub : (l.filter p).Sublist (l.insertionSort r) :=
    List.sublist_insertionSort hpw (List.filter_sublist l)
  have hperm : ((l.insertionSort r).filter p).Perm (l.filter p) :=
    (List.perm_insertionSort r l).filter p
  have hself : (l.filter p).filter p = l.filter p :=
    List.filter_eq_self.mpr fun a ha => List.of_mem_filter ha
  have hsub2 : (l.filter p).Sublist ((l.insertionSort r).filter p) := by
    have h2 := List.Sublist.filter p hsub
    rwa [hself] at h2
  exact (hsub2.eq_of_length hperm.length_eq.symm).symm

theorem sortDesc_sorted (l : List RankingEntry) :
    List.Sorted (fun a b : RankingEntry => b.value ≤ a.value) (sortDesc l) :=
  List.sorted_insertionSort _ l

theorem sortAsc_sorted (l : List RankingEntry) :
    List.Sorted (fun a b : RankingEntry => a.value ≤ b.value) (sortAsc l) :=
  List.sorted_insertionSort _ l

theorem sortDesc_stable (l : List RankingEntry) (v : ℚ) :
    (sortDesc l).filter (fun e => e.value == v) = l.filter fun e => e.value == v := by
  refine filter_insertionSort _ l _ fun a b ha hb => ?_
  simp only [beq_iff_eq] at ha hb
  rw [ha, hb]

theorem sortAsc_stable (l : List RankingEntry) (v : ℚ) :
    (sortAsc l).filter (fun e => e.value == v) = l.filter fun e => e.value == v := by
  refine filter_insertionSort _ l _ fun a b ha hb => ?_
  simp only [beq_iff_eq] at ha hb
  rw [ha, hb]

theorem sortDesc_perm (l : List RankingEntry) : (sortDesc l).Perm l :=
  List.perm_insertionSort _ l

theorem sortAsc_perm (l : List RankingEntry) : (sortAsc l).Perm l :=
  List.perm_insertionSort _ l

theorem generate_rankings_ok {input : List (String × List Record)} {r : Rankings}
    (h : generate_rankings input = Except.ok r) :
    r = sortRankings (buildEntries (filterStats input)) := by
  simp only [generate_rankings] at h
  by_cases he : (filterStats input).isEmpty
  · rw [if_pos he] at h
    exact absurd h (by simp)
  · rw [if_neg he] at h
    exact (Except.ok.inj h).symm

theorem buildEntries_players (ps : List (String × PlayerStats)) :
    ((buildEntries ps).play_time.map RankingEntry.player = ps.map Prod.fst) ∧
    ((buildEntries ps).games_played.map RankingEntry.player = ps.map Prod.fst) ∧
    ((buildEntries ps).wins.map RankingEntry.player = ps.map Prod.fst) ∧
    ((buildEntries ps).kills.map RankingEntry.player = ps.map Prod.fst) ∧
    ((buildEntries ps).deaths.map RankingEntry.player = ps.map Prod.fst) ∧
    ((buildEntries ps).kd.map RankingEntry.player = ps.map Prod.fst) ∧
    ((buildEntries ps).win_rate.map RankingEntry.player = ps.map Prod.fst) := by
  refine ⟨?_, ?_, ?_, ?_, ?_, ?_, ?_⟩ <;>
    simp [buildEntries, List.map_map, Function.comp, mkPlayTimeEntry, plainEntry]

theorem kdOf_eq_max (st : PlayerStats) :
    kdOf st = (st.kills : ℚ) / ((max st.deaths 1 : Int) : ℚ) := by
  unfold kdOf
  by_cases hd : st.deaths > 0
  · rw [if_pos hd, max_eq_left (by omega : (1 : Int) ≤ st.deaths)]
  · rw [if_neg hd, max_eq_right (by omega : st.deaths ≤ (1 : Int))]
    simp

theorem winRateOf_eq_max (st : PlayerStats) :
    winRateOf st = (st.wins : ℚ) / ((max st.games_played 1 : Int) : ℚ) * 100 := by
  unfold winRateOf
  by_cases hg : st.games_played > 0
  · rw [if_pos hg, max_eq_left (by omega : (1 : Int) ≤ st.games_played)]
  · rw [if_neg hg, max_eq_right (by omega : st.games_played ≤ (1 : Int))]
    simp

/-- C4: in every ranking produced, the seven category lists are sorted
by value — descending everywhere except `deaths`, which is ascending —
and the sort is stable: for every value, the entries carrying that value
appear exactly as they do in the unsorted build, whose player order is
the iteration order of the stats mapping; no secondary key is used. -/
theorem rankings_sorted_stable (ps : List (String × PlayerStats)) :
    (List.Sorted (fun a b : RankingEntry => b.value ≤ a.value)
        (sortRankings (buildEntries ps)).play_time ∧
     List.Sorted (fun a b : RankingEntry => b.value ≤ a.value)
        (sortRankings (buildEntries ps)).games_played ∧
     List.Sorted (fun a b : RankingEntry => b.value ≤ a.value)
        (sortRankings (buildEntries ps)).wins ∧
     List.Sorted (fun a b : RankingEntry => b.value ≤ a.value)
        (sortRankings (buildEntries ps)).kills ∧
     List.Sorted (fun a b : RankingEntry => b.value ≤ a.value)
        (sortRankings (buildEntries ps)).kd ∧
     List.Sorted (fun a b : RankingEntry => b.value ≤ a.value)
        (sortRankings (buildEntries ps)).win_rate ∧
     List.Sorted (fun a b : RankingEntry => a.value ≤ b.value)
        (sortRankings (buildEntries ps)).deaths) ∧
    (∀ v : ℚ,
      (sortRankings (buildEntries ps)).play_time.filter (fun e => e.value == v)
          = (buildEntries ps).play_time.filter (fun e => e.value == v) ∧
      (sortRankings (buildEntries ps)).games_played.filter (fun e => e.value == v)
          = (buildEntries ps).games_played.filter (fun e => e.value == v) ∧
      (sortRankings (buildEntries ps)).wins.filter (fun e => e.value == v)
          = (buildEntries ps).wins.filter (fun e => e.value == v) ∧
      (sortRankings (buildEntries ps)).kills.filter (fun e => e.value == v)
          = (buildEntries ps).kills.filter (fun e => e.value == v) ∧
      (sortRankings (buildEntries ps)).kd.filter (fun e => e.value == v)
          = (buildEntries ps).kd.filter (fun e => e.value == v) ∧
      (sortRankings (buildEntries ps)).win_rate.filter (fun e => e.value == v)
          = (buildEntries ps).win_rate.filter (fun e => e.value == v) ∧
      (sortRankings (buildEntries ps)).deaths.filter (fun e => e.value == v)
          = (buildEntries ps).deaths.filter (fun e => e.value == v)) ∧
    (((buildEntries ps).play_time.map RankingEntry.player = ps.map Prod.fst) ∧
     ((buildEntries ps).games_played.map RankingEntry.player = ps.map Prod.fst) ∧
     ((buildEntries ps).wins.map RankingEntry.player = ps.map Prod.fst) ∧
     ((buildEntries ps).kills.map RankingEntry.player = ps.map Prod.fst) ∧
     ((buildEntries ps).deaths.map RankingEntry.player = ps.map Prod.fst) ∧
     ((buildEntries ps).kd.map RankingEntry.player = ps.map Prod.fst) ∧
     ((buildEntries ps).win_rate.map RankingEntry.player = ps.map Prod.fst)) := by
  refine ⟨⟨sortDesc_sorted _, sortDesc_sorted _, sortDesc_sorted _, sortDesc_sorted _,
      sortDesc_sorted _, sortDesc_sorted _, sortAsc_sorted _⟩,
    fun v => ⟨sortDesc_stable _ v, sortDesc_stable _ v, sortDesc_stable _ v,
      sortDesc_stable _ v, sortDesc_stable _ v, sortDesc_stable _ v, sortAsc_stable _ v⟩,
    buildEntries_players ps⟩

/-- C5: every kd-ratio entry equals the player's kills divided by
`max(deaths, 1)`, every win-rate entry equals wins divided by
`max(games_played, 1)` times 100, and in particular 4 kills with 0
deaths give a finite ratio of exactly 4. -/
theorem kd_win_rate_zero_guard (input : List (String × List Record)) (r : Rankings)
    (h : generate_rankings input = Except.ok r) :
    (∀ e ∈ r.kd, ∃ st : PlayerStats, (e.player, st) ∈ filterStats input ∧
        e.value = (st.kills : ℚ) / ((max st.deaths 1 : Int) : ℚ)) ∧
    (∀ e ∈ r.win_rate, ∃ st : PlayerStats, (e.player, st) ∈ filterStats input ∧
        e.value = (st.wins : ℚ) / ((max st.games_played 1 : Int) : ℚ) * 100) ∧
    kdOf ⟨0, 0, 0, 4, 0⟩ = 4 := by
  have hr := generate_rankings_ok h
  subst hr
  refine ⟨?_, ?_, by norm_num [kdOf]⟩
  · intro e he
    have h2 := (List.mem_insertionSort _).mp he
    rcases List.mem_map.mp h2 with ⟨p, hp, hpe⟩
    subst hpe
    exact ⟨p.2, hp, kdOf_eq_max p.2⟩
  · intro e he
    have h2 := (List.mem_insertionSort _).mp he
    rcases List.mem_map.mp h2 with ⟨p, hp, hpe⟩
    subst hpe
    exact ⟨p.2, hp, winRateOf_eq_max p.2⟩

/-- Witness for C5: the spec's divide-by-zero example, applied through a
ranking run on a roster whose single player has 4 kills and 0 deaths. -/
theorem kd_win_rate_zero_guard_witness : kdOf ⟨0, 0, 0, 4, 0⟩ = 4 :=
  (kd_win_rate_zero_guard
    [("A", [[("Objective", pyStr "KilledCount"), ("Score", pyInt 4)]])]
    (sortRankings (buildEntries (filterStats
      [("A", [[("Objective", pyStr "KilledCount"), ("Score", pyInt 4)]])])))
    rfl).2.2

/-- C6: no entity whose name is empty or starts with one of the reserved
markers appears in any of the seven ranking lists or in the player
listing; the last conjunct spells the filter out. -/
theorem sentinel_filtering (input : List (String × List Record)) :
    (∀ r : Rankings, generate_rankings input = Except.ok r →
      ∀ e : RankingEntry,
        (e ∈ r.play_time ∨ e ∈ r.games_played ∨ e ∈ r.wins ∨ e ∈ r.kills ∨
         e ∈ r.deaths ∨ e ∈ r.kd ∨ e ∈ r.win_rate) →
        goodName e.player = true) ∧
    (∀ p ∈ get_player_list input, goodName p = true) ∧
    (∀ s : String, goodName s = true ↔
      (¬ s = "" ∧ strStarts s "$" = false ∧ strStarts s "#" = false ∧
       strStarts s "%" = false ∧ strStarts s "[" = false)) := by
  refine ⟨?_, ?_, ?_⟩
  · intro r h e he
    have hr := generate_rankings_ok h
    subst hr
    have hmem : ∃ p ∈ filterStats input, e.player = p.1 := by
      rcases he with h1 | h1 | h1 | h1 | h1 | h1 | h1 <;>
      · have h2 := (List.mem_insertionSort _).mp h1
        rcases List.mem_map.mp h2 with ⟨p, hp, hpe⟩
        exact ⟨p, hp, by rw [← hpe]; rfl⟩
    rcases hmem with ⟨p, hp, hpe⟩
    rw [hpe]
    rcases List.mem_map.mp hp with ⟨q, hq, hqe⟩
    rw [← hqe]
    exact (List.mem_filter.mp hq).2
  · intro p hp
    exact List.of_mem_filter ((List.mem_insertionSort _).mp hp)
  · intro s
    simp [goodName, and_assoc]

/-- Witness for C6: a roster holding the sentinel `$CONST-x` and a real
player; the produced play-time head entry and the listed player both
pass the filter. -/
theorem sentinel_filtering_witness :
    goodName (mkPlayTimeEntry "Alice" (calculate_player_stats [])).player = true ∧
    goodName "Alice" = true :=
  ⟨(sentinel_filtering [("$CONST-x", []), ("Alice", [])]).1
      (sortRankings (buildEntries (filterStats [("$CONST-x", []), ("Alice", [])])))
      rfl
      (mkPlayTimeEntry "Alice" (calculate_player_stats []))
      (Or.inl (by decide)),
   (sentinel_filtering [("$CONST-x", []), ("Alice", [])]).2.1 "Alice" (by decide)⟩

/-- C7: when the roster is empty after sentinel filtering (in particular
when the grouped input itself is empty), ranking fails with the no-data
error outcome and produces no rankings. -/
theorem empty_roster_error (input : List (String × List Record))
    (h : input.filter (fun p => goodName p.1) = []) :
    generate_rankings input = Except.error "未找到有效的玩家数据" ∧
    ∀ r : Rankings, ¬ generate_rankings input = Except.ok r := by
  have hfs : filterStats input = [] := by
    simp [filterStats, h]
  constructor
  · simp [generate_rankings, hfs]
  · intro r hc
    simp [generate_rankings, hfs] at hc

/-- Witness for C7: an input holding only the sentinel entity fails with
the no-data error. -/
theorem empty_roster_error_witness :
    generate_rankings [("$CONST-x", [])] = Except.error "未找到有效的玩家数据" :=
  (empty_roster_error [("$CONST-x", [])] rfl).1

/-- C9: every play-time entry carries the `HH:MM:SS` rendering of its
seconds value computed by floor division, each component zero-padded to
at least two characters (hours of unbounded width); 3661 seconds format
as `01:01:01`. -/
theorem play_time_formatting (input : List (String × List Record)) (r : Rankings)
    (h : generate_rankings input = Except.ok r) :
    (∀ e ∈ r.play_time, ∃ t : Int, e.value = (t : ℚ) ∧
        e.hours = some (t.fdiv 3600) ∧
        e.minutes = some ((t.fmod 3600).fdiv 60) ∧
        e.seconds = some (t.fmod 60) ∧
        e.formatted = some (pad2 (t.fdiv 3600) ++ ":" ++ pad2 ((t.fmod 3600).fdiv 60)
          ++ ":" ++ pad2 (t.fmod 60))) ∧
    (mkPlayTimeEntry "p" ⟨3661, 0, 0, 0, 0⟩).formatted = some "01:01:01" := by
  have hr := generate_rankings_ok h
  subst hr
  refine ⟨?_, by decide⟩
  intro e he
  have h2 := (List.mem_insertionSort _).mp he
  rcases List.mem_map.mp h2 with ⟨p, hp, hpe⟩
  subst hpe
  exact ⟨p.2.play_time_seconds, rfl, rfl, rfl, rfl, rfl⟩

/-- Witness for C9: the spec's formatting example through a ranking run. -/
theorem play_time_formatting_witness :
    (mkPlayTimeEntry "p" ⟨3661, 0, 0, 0, 0⟩).formatted = some "01:01:01" :=
  (play_time_formatting [("A", [])]
    (sortRankings (buildEntries (filterStats [("A", [])]))) rfl).2

/-- C10: whenever ranking succeeds, each of the seven lists carries
exactly the eligible players — its player multiset is a permutation of
the filtered roster — so all seven lists have the roster's length. -/
theorem rankings_one_entry_per_player (input : List (String × List Record)) (r : Rankings)
    (h : generate_rankings input = Except.ok r) :
    ((r.play_time.map RankingEntry.player).Perm
        ((input.filter fun p => goodName p.1).map Prod.fst) ∧
     (r.games_played.map RankingEntry.player).Perm
        ((input.filter fun p => goodName p.1).map Prod.fst) ∧
     (r.wins.map RankingEntry.player).Perm
        ((input.filter fun p => goodName p.1).map Prod.fst) ∧
     (r.kills.map RankingEntry.player).Perm
        ((input.filter fun p => goodName p.1).map Prod.fst) ∧
     (r.deaths.map RankingEntry.player).Perm
        ((input.filter fun p => goodName p.1).map Prod.fst) ∧
     (r.kd.map RankingEntry.player).Perm
        ((input.filter fun p => goodName p.1).map Prod.fst) ∧
     (r.win_rate.map RankingEntry.player).Perm
        ((input.filter fun p => goodName p.1).map Prod.fst)) ∧
    (r.play_time.length = (input.filter fun p => goodName p.1).length ∧
     r.games_played.length = (input.filter fun p => goodName p.1).length ∧
     r.wins.length = (input.filter fun p => goodName p.1).length ∧
     r.kills.length = (input.filter fun p => goodName p.1).length ∧
     r.deaths.length = (input.filter fun p => goodName p.1).length ∧
     r.kd.length = (input.filter fun p => goodName p.1).length ∧
     r.win_rate.length = (input.filter fun p => goodName p.1).length) := by
  have hr := generate_rankings_ok h
  subst hr
  have hroster : (filterStats input).map Prod.fst
      = (input.filter fun p => goodName p.1).map Prod.fst := by
    simp [filterStats, List.map_map, Function.comp]
  have hb := buildEntries_players (filterStats input)
  constructor
  · refine ⟨?_, ?_, ?_, ?_, ?_, ?_, ?_⟩
    · have hperm := (sortDesc_perm ((buildEntries (filterStats input)).play_time)).map
        RankingEntry.player
      rwa [hb.1, hroster] at hperm
    · have hperm := (sortDesc_perm ((buildEntries (filterStats input)).games_played)).map
        RankingEntry.player
      rwa [hb.2.1, hroster] at hperm
    · have hperm := (sortDesc_perm ((buildEntries (filterStats input)).wins)).map
        RankingEntry.player
      rwa [hb.2.2.1, hroster] at hperm
    · have hperm := (sortDesc_perm ((buildEntries (filterStats input)).kills)).map
        RankingEntry.player
      rwa [hb.2.2.2.1, hroster] at hperm
    · have hperm := (sortAsc_perm ((buildEntries (filterStats input)).deaths)).map
        RankingEntry.player
      rwa [hb.2.2.2.2.1, hroster] at hperm
    · have hperm := (sortDesc_perm ((buildEntries (filterStats input)).kd)).map
        RankingEntry.player
      rwa [hb.2.2.2.2.2.1, hroster] at hperm
    · have hperm := (sortDesc_perm ((buildEntries (filterStats input)).win_rate)).map
        RankingEntry.player
      rwa [hb.2.2.2.2.2.2, hroster] at hperm
  · refine ⟨?_, ?_, ?_, ?_, ?_, ?_, ?_⟩ <;>
      simp [sortRankings, sortDesc, sortAsc, List.length_insertionSort, buildEntries,
        filterStats]

/-- Witness for C10: a roster with a sentinel and two real players; the
play-time list covers exactly the two eligible players. -/
theorem rankings_one_entry_per_player_witness :
    (((sortRankings (buildEntries (filterStats
        [("$CONST-x", ([] : List Record)), ("A", []), ("B", [])]))).play_time.map
      RankingEntry.player).Perm
      (([("$CONST-x", ([] : List Record)), ("A", []), ("B", [])].filter
          fun p => goodName p.1).map Prod.fst)) :=
  (rankings_one_entry_per_player [("$CONST-x", ([] : List Record)), ("A", []), ("B", [])]
    (sortRankings (buildEntries (filterStats
      [("$CONST-x", ([] : List Record)), ("A", []), ("B", [])])))
    rfl).1.1

end LPStats
